import Mathlib

/-!
Shallow embedding of the asio-chat server (src/server/src/main.cc).

Frames are modelled at the message level: a frame body is a JSON object
whose fields, as used by the server, are all string-valued, so a body is
an association list `List (String × String)`.  A body on which
`Json::parse` (or a required `jreq[k].get<std::string>()`) throws is
represented by `Inbound.body none` / a failed field lookup; the exception
that escapes the completion handler is modelled by `Except.error ()`,
which `io_context.run()` rethrows and `main` catches (the process then
exits), modelled by `serverProcessFrame` clearing the `running` flag.

The `chat_room`, `chat_session` and server state mirror the C++ classes:
`recent_msgs_`/`participants_` of `chat_room`, and `write_msgs_`, `auth_`
and `user_` of `chat_session` (`closed` records that `do_close` shut the
socket down for writing).  `std::unordered_map` is modelled as an
association list with insert-if-absent (`emplace`) and erase-by-key.
-/

/-- A JSON object with string-valued fields, as the server uses them. -/
abbrev JObj := List (String × String)

/-- Association-list lookup, modelling `std::unordered_map::find` and
`nlohmann::json` field access `j[k].get<std::string>()` (where a missing
field means the access throws). -/
def findA {α β : Type} [DecidableEq α] : List (α × β) → α → Option β
  | [], _ => none
  | p :: r, k => if p.1 = k then some p.2 else findA r k

/-- Field access on a JSON object body. -/
def jget (j : JObj) (k : String) : Option String := findA j k

/-- The credential store `user_db` (src/server/src/main.cc lines 28-33). -/
def user_db : List (String × String) :=
  [("admin", "password"), ("alice", "hunter2"),
   ("rabbit", "verylate"), ("madhatter", "teaparty")]

/-- History capacity `max_recent_msgs` of `chat_room` (line 126). -/
def max_recent_msgs : Nat := 128

/-- The success Notice built on a successful auth (lines 243-245). -/
def auth_success_notice : JObj := [("type", "srv"), ("str", "Success: logged in")]

/-- The failure Notice built on a failed auth (lines 255-257). -/
def auth_fail_notice : JObj :=
  [("type", "srv"), ("str", "Error: incorrect user or pass, disconnecting...")]

/-- The Notice sent to a not-yet-authenticated session on a non-auth
message (lines 268-270). -/
def please_auth_notice : JObj :=
  [("type", "srv"), ("str", "Error: please authenticate with \x27/auth <user> <pass>\x27")]

/-- The Private message built by `chat_room::deliver(to, from, msg)`
(lines 114-117). -/
def prv_msg (fromUser text : String) : JObj :=
  [("type", "prv"), ("from", fromUser), ("msg", text)]

/-- An Auth request body as the client builds it (client lines 274-277). -/
def auth_req (u p : String) : JObj :=
  [("type", "auth"), ("user", u), ("pass", p)]

/-- Per-connection session state: outbound queue `write_msgs_`, the
`auth_` flag and `user_` string, plus a flag recording that `do_close`
has shut the socket down for writing (lines 324-329, 312-322). -/
structure chat_session where
  write_msgs : List JObj
  auth : Bool
  user : String
  closed : Bool
deriving DecidableEq

/-- The room: bounded history `recent_msgs_` and the participant map
`participants_` from username to the session of that connection
(lines 124-129); sessions are referenced here by connection id. -/
structure chat_room where
  recent_msgs : List JObj
  participants : List (String × Nat)
deriving DecidableEq

/-- Whole-server state: all live sessions by connection id, the shared
room, and whether the process is still running (`io_context.run()` has
not returned). -/
structure Server where
  sessions : List (Nat × chat_session)
  room : chat_room
  running : Bool
deriving DecidableEq

/-- `chat_room::contains` (lines 52-60). -/
def chat_room.contains (r : chat_room) (name : String) : Bool :=
  (findA r.participants name).isSome

/-- `participants_.emplace(name, participant)`: insert only if the key is
absent (line 64). -/
def emplaceA (ps : List (String × Nat)) (k : String) (v : Nat) : List (String × Nat) :=
  if (findA ps k).isSome then ps else ps ++ [(k, v)]

/-- `participants_.erase(name)` (line 74); keys are unique, so erasing by
filter removes exactly the entry of that name. -/
def eraseA (ps : List (String × Nat)) (k : String) : List (String × Nat) :=
  ps.filter (fun p => p.1 ≠ k)

/-- Apply `f` to the session of connection `conn`. -/
def updateSession (srv : Server) (conn : Nat) (f : chat_session → chat_session) : Server :=
  { srv with sessions := srv.sessions.map (fun p => if p.1 = conn then (p.1, f p.2) else p) }

/-- The queue effect of `chat_session::deliver`: append one frame to the
session's outbound queue (lines 148-157; the flush dynamics of the write
pipeline are modelled separately by `WState` below). -/
def pushMsg (m : JObj) (s : chat_session) : chat_session :=
  { s with write_msgs := s.write_msgs ++ [m] }

/-- The history-trimming loop `while (recent_msgs_.size() > max_recent_msgs)
pop_front()` (lines 81-84); the fuel bounds the iteration count, and one
element is popped per iteration, so fuel = length always suffices. -/
def trim_fuel : Nat → List JObj → List JObj
  | 0, l => l
  | n + 1, l => if max_recent_msgs < l.length then trim_fuel n l.tail else l

/-- Append-then-trim entry point used by `chat_room::deliver`. -/
def trim_history (l : List JObj) : List JObj := trim_fuel l.length l

/-- The fan-out loop of `chat_room::deliver` (lines 86-89): call
`deliver` on each participant's session in map order. -/
def deliverToAll (srv : Server) (ps : List (String × Nat)) (m : JObj) : Server :=
  match ps with
  | [] => srv
  | p :: r => deliverToAll (updateSession srv p.2 (pushMsg m)) r m

/-- `chat_room::deliver(chat_message const&)` (lines 77-90): append the
frame to the history, trim, then fan out to every participant. -/
def roomBroadcast (srv : Server) (m : JObj) : Server :=
  let srv1 : Server :=
    { srv with room := { srv.room with recent_msgs := trim_history (srv.room.recent_msgs ++ [m]) } }
  deliverToAll srv1 srv1.room.participants m

/-- `chat_room::deliver(to, from, msg)` (lines 109-122): look up `to`;
if present deliver one Private message to that session only, else do
nothing. -/
def roomPrivate (srv : Server) (toUser fromUser text : String) : Server :=
  match findA srv.room.participants toUser with
  | some conn => updateSession srv conn (pushMsg (prv_msg fromUser text))
  | none => srv

/-- The replay loop of `chat_room::join` (lines 66-69): deliver every
history entry, oldest first, to the joining session. -/
def replayTo (srv : Server) (conn : Nat) : List JObj → Server
  | [] => srv
  | m :: r => replayTo (updateSession srv conn (pushMsg m)) conn r

/-- `chat_room::join` (lines 62-70): emplace the participant, then
replay the history to it. -/
def roomJoin (srv : Server) (name : String) (conn : Nat) : Server :=
  let srv1 : Server :=
    { srv with room := { srv.room with participants := emplaceA srv.room.participants name conn } }
  replayTo srv1 conn srv.room.recent_msgs

/-- `chat_room::leave` (lines 72-75). -/
def roomLeave (srv : Server) (name : String) : Server :=
  { srv with room := { srv.room with participants := eraseA srv.room.participants name } }

/-- What the body-read completion handler observes: an I/O error, or a
body that fails `Json::parse` (`none`), or a parsed JSON object. -/
inductive Inbound where
  | ioError : Inbound
  | body : Option JObj → Inbound

/-- Result of one body-read completion: the new server state and whether
the handler reaches `do_read_header()` again (line 276). -/
structure StepResult where
  srv : Server
  continueReading : Bool
deriving DecidableEq

/-- Dispatch while `auth_` is true (lines 210-229): `msg` broadcasts the
raw inbound frame, `prv` routes a private message (throwing if `to` or
`msg` is missing), anything else falls through with no action. -/
def dispatchAuthed (srv : Server) (sess : chat_session) (jreq : JObj) (t : String) :
    Except Unit StepResult :=
  if t = "msg" then .ok ⟨roomBroadcast srv jreq, true⟩
  else if t = "prv" then
    match jget jreq "to", jget jreq "msg" with
    | some toUser, some text => .ok ⟨roomPrivate srv toUser sess.user text, true⟩
    | _, _ => .error ()
  else .ok ⟨srv, true⟩

/-- Dispatch while `auth_` is false (lines 230-274).  The success
condition at line 238 is `check_user != end && first == user &&
second == pass && !contains(user)`, i.e. the db lookup yields exactly
`pass` and the room does not contain the name.  On success: set `auth_`
and `user_`, queue the success Notice, then join the room (which replays
the history after the Notice).  On failure: queue the failure Notice and
call `do_close` (shutdown for writing).  A non-auth type gets the
please-authenticate Notice. -/
def dispatchUnauthed (srv : Server) (conn : Nat) (jreq : JObj) (t : String) :
    Except Unit StepResult :=
  if t = "auth" then
    match jget jreq "user", jget jreq "pass" with
    | some u, some p =>
      if findA user_db u = some p ∧ srv.room.contains u = false then
        let srv1 := updateSession srv conn (fun s => { s with auth := true, user := u })
        let srv2 := updateSession srv1 conn (pushMsg auth_success_notice)
        .ok ⟨roomJoin srv2 u conn, true⟩
      else
        let srv1 := updateSession srv conn (pushMsg auth_fail_notice)
        .ok ⟨updateSession srv1 conn (fun s => { s with closed := true }), true⟩
    | _, _ => .error ()
  else
    .ok ⟨updateSession srv conn (pushMsg please_auth_notice), true⟩

/-- The body-read completion handler `chat_session::do_read_body`
(lines 193-284) for connection `conn`.  `Except.error ()` models an
exception escaping the handler (failed parse or missing required field);
on an I/O error the session leaves the room and stops reading. -/
def do_read_body_step (srv : Server) (conn : Nat) (inb : Inbound) : Except Unit StepResult :=
  match findA srv.sessions conn with
  | none => .ok ⟨srv, false⟩
  | some sess =>
    match inb with
    | .ioError => .ok ⟨roomLeave srv sess.user, false⟩
    | .body none => .error ()
    | .body (some jreq) =>
      match jget jreq "type" with
      | none => .error ()
      | some t =>
        if sess.auth then dispatchAuthed srv sess jreq t
        else dispatchUnauthed srv conn jreq t

/-- One frame handled at process level: an exception escaping the handler
propagates out of `io_context.run()` into the catch in `main`
(lines 362-389), after which the process exits — `running` becomes
false. -/
def serverProcessFrame (srv : Server) (conn : Nat) (inb : Inbound) : Server :=
  match do_read_body_step srv conn inb with
  | .ok r => r.srv
  | .error _ => { srv with running := false }

/-- The event loop: frames are dispatched only while the process runs;
once `running` is false nothing is processed any more. -/
def serverRun (srv : Server) (evs : List (Nat × Inbound)) : Server :=
  evs.foldl (fun s e => if s.running then serverProcessFrame s e.1 e.2 else s) srv

/-- State of one session's write pipeline: the queue `write_msgs_`, whether
an `async_write` is in flight, and the frames fully written to the socket
so far, in order. -/
structure WState where
  write_msgs : List JObj
  inFlight : Bool
  sent : List JObj
deriving DecidableEq

/-- `chat_session::deliver` (lines 148-157): record whether a write is in
progress (queue non-empty), append, and start a flush only if none was. -/
def wDeliver (s : WState) (m : JObj) : WState :=
  if !s.write_msgs.isEmpty then { s with write_msgs := s.write_msgs ++ [m] }
  else { write_msgs := s.write_msgs ++ [m], inFlight := true, sent := s.sent }

/-- Completion of the `async_write` started by `do_write` (lines 286-310):
the head frame is now on the wire; pop it and immediately continue with
the new head if the queue is non-empty. -/
def wComplete (s : WState) : WState :=
  if s.inFlight then
    match s.write_msgs with
    | [] => s
    | f :: rest => { write_msgs := rest, inFlight := !rest.isEmpty, sent := s.sent ++ [f] }
  else s

/-- Events of the write pipeline: an enqueue via `deliver`, or the
completion of the in-flight socket write. -/
inductive WEvent where
  | enq : JObj → WEvent
  | complete : WEvent

/-- One write-pipeline transition. -/
def wStep (s : WState) : WEvent → WState
  | .enq m => wDeliver s m
  | .complete => wComplete s

/-- Initial write-pipeline state of a fresh session. -/
def wInit : WState := ⟨[], false, []⟩

/-- Run the write pipeline from a given state. -/
def wRunFrom (s : WState) (evs : List WEvent) : WState := evs.foldl wStep s

/-- Run the write pipeline from the initial state. -/
def wRun (evs : List WEvent) : WState := wRunFrom wInit evs

/-- The frames enqueued by an event sequence, in order. -/
def enqueuedOf (evs : List WEvent) : List JObj :=
  evs.filterMap (fun e => match e with | .enq m => some m | .complete => none)

/-- The room invariant of the spec: every key of the participant map has
an entry in the credential store, and keys are unique. -/
def GoodRoom (srv : Server) : Prop :=
  (∀ q ∈ srv.room.participants, (findA user_db q.1).isSome = true) ∧
  (srv.room.participants.map Prod.fst).Nodup

/-- A whole sequence of broadcasts, in order. -/
def broadcastAll (srv : Server) : List JObj → Server
  | [] => srv
  | m :: r => broadcastAll (roomBroadcast srv m) r

/-- A freshly accepted, unauthenticated session. -/
def fresh_session : chat_session :=
  { write_msgs := [], auth := false, user := "", closed := false }

/-- A session already authenticated as `u`, with an empty outbound queue. -/
def authed_session (u : String) : chat_session :=
  { write_msgs := [], auth := true, user := u, closed := false }

/-- A Chat request body as the client builds it (client lines 346-349);
`u` is whatever the client chose to place in the `user` field. -/
def chat_req (u text : String) : JObj :=
  [("type", "msg"), ("user", u), ("msg", text)]

/-- A concrete running server: alice on connection 1 and bob on
connection 2, both authenticated and in the room, empty history. -/
def demo_srv : Server :=
  { sessions := [(1, authed_session "alice"), (2, authed_session "bob")],
    room := { recent_msgs := [], participants := [("alice", 1), ("bob", 2)] },
    running := true }

/-- A concrete server with one unauthenticated session on connection 1. -/
def c3_srv : Server :=
  { sessions := [(1, fresh_session)],
    room := { recent_msgs := [], participants := [] },
    running := true }

/-- A concrete server with two unauthenticated sessions. -/
def c4_srv : Server :=
  { sessions := [(1, fresh_session), (2, fresh_session)],
    room := { recent_msgs := [], participants := [] },
    running := true }

/-- A sequence of `max_recent_msgs + 1` broadcast bodies. -/
def c5_ms : List JObj := List.replicate (max_recent_msgs + 1) [("type", "msg")]

/-- How many entries of an association list carry key `k`. -/
def countKey {α β : Type} [DecidableEq α] : List (α × β) → α → Nat
  | [], _ => 0
  | p :: r, k => (if p.1 = k then 1 else 0) + countKey r k

theorem findA_update {α β : Type} [DecidableEq α] (l : List (α × β)) (k : α) (f : β → β) :
    findA (l.map (fun p => if p.1 = k then (p.1, f p.2) else p)) k = (findA l k).map f := by
  induction l with
  | nil => rfl
  | cons p r ih =>
    by_cases h : p.1 = k
    · simp [findA, h]
    · simp [findA, h, ih]

theorem findA_update_ne {α β : Type} [DecidableEq α] (l : List (α × β)) (k k2 : α)
    (f : β → β) (hne : k2 ≠ k) :
    findA (l.map (fun p => if p.1 = k then (p.1, f p.2) else p)) k2 = findA l k2 := by
  induction l with
  | nil => rfl
  | cons p r ih =>
    by_cases h : p.1 = k
    · simp [findA, h, Ne.symm hne, ih]
    · by_cases h2 : p.1 = k2
      · simp [findA, h, h2, hne]
      · simp [findA, h, h2, ih]

theorem findA_append_none {α β : Type} [DecidableEq α] (l : List (α × β)) (k : α) (v : β)
    (h : findA l k = none) : findA (l ++ [(k, v)]) k = some v := by
  induction l with
  | nil => simp [findA]
  | cons p r ih =>
    by_cases hp : p.1 = k
    · simp [findA, hp] at h
    · simp [findA, hp] at h ⊢
      exact ih h

theorem findA_none_countKey {α β : Type} [DecidableEq α] (l : List (α × β)) (k : α)
    (h : findA l k = none) : countKey l k = 0 := by
  induction l with
  | nil => rfl
  | cons p r ih =>
    by_cases hp : p.1 = k
    · simp [findA, hp] at h
    · simp [findA, hp] at h
      simp [countKey, hp, ih h]

theorem countKey_append {α β : Type} [DecidableEq α] (l1 l2 : List (α × β)) (k : α) :
    countKey (l1 ++ l2) k = countKey l1 k + countKey l2 k := by
  induction l1 with
  | nil => simp [countKey]
  | cons p r ih => simp [countKey, ih]; omega

theorem findA_none_not_mem_keys {α β : Type} [DecidableEq α] (l : List (α × β)) (k : α)
    (h : findA l k = none) : k ∉ l.map Prod.fst := by
  induction l with
  | nil => simp
  | cons p r ih =>
    by_cases hp : p.1 = k
    · simp [findA, hp] at h
    · simp [findA, hp] at h
      simp [ih h]
      exact fun hc => hp hc.symm

theorem updateSession_room (srv : Server) (conn : Nat) (f : chat_session → chat_session) :
    (updateSession srv conn f).room = srv.room := rfl

theorem updateSession_running (srv : Server) (conn : Nat) (f : chat_session → chat_session) :
    (updateSession srv conn f).running = srv.running := rfl

theorem updateSession_findA (srv : Server) (conn : Nat) (f : chat_session → chat_session) :
    findA (updateSession srv conn f).sessions conn = (findA srv.sessions conn).map f :=
  findA_update srv.sessions conn f

theorem updateSession_findA_ne (srv : Server) (conn c2 : Nat) (f : chat_session → chat_session)
    (hne : c2 ≠ conn) :
    findA (updateSession srv conn f).sessions c2 = findA srv.sessions c2 :=
  findA_update_ne srv.sessions conn c2 f hne

theorem deliverToAll_room (ps : List (String × Nat)) (m : JObj) (srv : Server) :
    (deliverToAll srv ps m).room = srv.room := by
  induction ps generalizing srv with
  | nil => rfl
  | cons p r ih => simp [deliverToAll, ih, updateSession_room]

theorem deliverToAll_running (ps : List (String × Nat)) (m : JObj) (srv : Server) :
    (deliverToAll srv ps m).running = srv.running := by
  induction ps generalizing srv with
  | nil => rfl
  | cons p r ih => simp [deliverToAll, ih, updateSession_running]

theorem deliverToAll_findA_not_mem (ps : List (String × Nat)) (m : JObj) (srv : Server)
    (c : Nat) (h : c ∉ ps.map Prod.snd) :
    findA (deliverToAll srv ps m).sessions c = findA srv.sessions c := by
  induction ps generalizing srv with
  | nil => rfl
  | cons p r ih =>
    rw [List.map_cons] at h
    have h1 : c ≠ p.2 := fun hc => h (by rw [hc]; exact List.mem_cons_self _ _)
    have h2 : c ∉ r.map Prod.snd := fun hc => h (List.mem_cons_of_mem _ hc)
    rw [deliverToAll, ih _ h2, updateSession_findA_ne _ _ _ _ h1]

theorem deliverToAll_findA_mem (ps : List (String × Nat)) (m : JObj) (srv : Server)
    (name : String) (c : Nat) (hnd : (ps.map Prod.snd).Nodup) (hmem : (name, c) ∈ ps) :
    findA (deliverToAll srv ps m).sessions c = (findA srv.sessions c).map (pushMsg m) := by
  induction ps generalizing srv with
  | nil => simp at hmem
  | cons p r ih =>
    rw [List.map_cons, List.nodup_cons] at hnd
    rcases List.mem_cons.mp hmem with hh | ht
    · have hc : p.2 = c := by rw [← hh]
      rw [deliverToAll, deliverToAll_findA_not_mem _ _ _ _ (by rw [← hc]; exact hnd.1), hc,
        updateSession_findA]
    · have hcr : c ∈ r.map Prod.snd := List.mem_map.mpr ⟨(name, c), ht, rfl⟩
      have hne : c ≠ p.2 := by
        intro hc
        rw [hc] at hcr
        exact hnd.1 hcr
      rw [deliverToAll, ih _ hnd.2 ht, updateSession_findA_ne _ _ _ _ hne]

theorem replayTo_room (l : List JObj) (srv : Server) (conn : Nat) :
    (replayTo srv conn l).room = srv.room := by
  induction l generalizing srv with
  | nil => rfl
  | cons m r ih => simp [replayTo, ih, updateSession_room]

theorem replayTo_findA (l : List JObj) (srv : Server) (conn : Nat) :
    findA (replayTo srv conn l).sessions conn =
      (findA srv.sessions conn).map (fun s => { s with write_msgs := s.write_msgs ++ l }) := by
  induction l generalizing srv with
  | nil =>
    simp [replayTo]
  | cons m r ih =>
    rw [replayTo, ih, updateSession_findA]
    cases findA srv.sessions conn <;> simp [pushMsg]

theorem replayTo_findA_ne (l : List JObj) (srv : Server) (conn c2 : Nat) (hne : c2 ≠ conn) :
    findA (replayTo srv conn l).sessions c2 = findA srv.sessions c2 := by
  induction l generalizing srv with
  | nil => rfl
  | cons m r ih => rw [replayTo, ih, updateSession_findA_ne _ _ _ _ hne]

theorem roomJoin_participants (srv : Server) (name : String) (conn : Nat) :
    (roomJoin srv name conn).room.participants = emplaceA srv.room.participants name conn := by
  rw [roomJoin, replayTo_room]

theorem roomJoin_recent (srv : Server) (name : String) (conn : Nat) :
    (roomJoin srv name conn).room.recent_msgs = srv.room.recent_msgs := by
  rw [roomJoin, replayTo_room]

theorem roomJoin_findA (srv : Server) (name : String) (conn : Nat) :
    findA (roomJoin srv name conn).sessions conn =
      (findA srv.sessions conn).map
        (fun s => { s with write_msgs := s.write_msgs ++ srv.room.recent_msgs }) := by
  rw [roomJoin, replayTo_findA]

theorem roomJoin_findA_ne (srv : Server) (name : String) (conn c2 : Nat) (hne : c2 ≠ conn) :
    findA (roomJoin srv name conn).sessions c2 = findA srv.sessions c2 := by
  rw [roomJoin, replayTo_findA_ne _ _ _ _ hne]

theorem roomBroadcast_recent (srv : Server) (m : JObj) :
    (roomBroadcast srv m).room.recent_msgs = trim_history (srv.room.recent_msgs ++ [m]) := by
  rw [roomBroadcast, deliverToAll_room]

theorem roomBroadcast_participants (srv : Server) (m : JObj) :
    (roomBroadcast srv m).room.participants = srv.room.participants := by
  rw [roomBroadcast, deliverToAll_room]

theorem trim_fuel_eq (n : Nat) (l : List JObj) (h : l.length ≤ max_recent_msgs + n) :
    trim_fuel n l = l.drop (l.length - max_recent_msgs) := by
  induction n generalizing l with
  | zero =>
    have : l.length - max_recent_msgs = 0 := by omega
    rw [trim_fuel, this, List.drop_zero]
  | succ n ih =>
    rw [trim_fuel]
    by_cases hl : max_recent_msgs < l.length
    · rw [if_pos hl]
      cases l with
      | nil => simp at hl
      | cons a r =>
        have hr : r.length ≤ max_recent_msgs + n := by
          simp at h; omega
        rw [List.tail_cons, ih r hr]
        have : (a :: r).length - max_recent_msgs = (r.length - max_recent_msgs) + 1 := by
          simp at hl ⊢; omega
        rw [this, List.drop_succ_cons]
    · rw [if_neg hl]
      have : l.length - max_recent_msgs = 0 := by omega
      rw [this, List.drop_zero]

theorem trim_history_eq (l : List JObj) :
    trim_history l = l.drop (l.length - max_recent_msgs) :=
  trim_fuel_eq l.length l (by omega)

theorem broadcastAll_participants (ms : List JObj) (srv : Server) :
    (broadcastAll srv ms).room.participants = srv.room.participants := by
  induction ms generalizing srv with
  | nil => rfl
  | cons m r ih => rw [broadcastAll, ih, roomBroadcast_participants]

theorem broadcastAll_recent (ms : List JObj) (srv : Server)
    (h0 : srv.room.recent_msgs.length ≤ max_recent_msgs) :
    (broadcastAll srv ms).room.recent_msgs =
      (srv.room.recent_msgs ++ ms).drop
        ((srv.room.recent_msgs.length + ms.length) - max_recent_msgs) := by
  induction ms generalizing srv with
  | nil =>
    rw [broadcastAll]
    have h1 : srv.room.recent_msgs.length + List.length ([] : List JObj) - max_recent_msgs = 0 := by
      simp; omega
    rw [h1, List.drop_zero, List.append_nil]
  | cons m r ih =>
    rw [broadcastAll]
    have hrec : (roomBroadcast srv m).room.recent_msgs =
        (srv.room.recent_msgs ++ [m]).drop
          (srv.room.recent_msgs.length + 1 - max_recent_msgs) := by
      rw [roomBroadcast_recent, trim_history_eq]
      simp
    have hlb : (roomBroadcast srv m).room.recent_msgs.length ≤ max_recent_msgs := by
      rw [hrec, List.length_drop, List.length_append, List.length_singleton]
      omega
    rw [ih _ hlb, hrec, List.length_drop, List.length_append, List.length_singleton]
    have hk : srv.room.recent_msgs.length + 1 - max_recent_msgs ≤
        (srv.room.recent_msgs ++ [m]).length := by
      rw [List.length_append, List.length_singleton]
      omega
    rw [← List.drop_append_of_le_length hk, List.drop_drop]
    rw [List.append_assoc, List.singleton_append]
    have harith : (srv.room.recent_msgs.length + 1 - max_recent_msgs) +
        (srv.room.recent_msgs.length + 1 - (srv.room.recent_msgs.length + 1 - max_recent_msgs) +
          r.length - max_recent_msgs) =
        srv.room.recent_msgs.length + (m :: r).length - max_recent_msgs := by
      rw [List.length_cons]
      omega
    rw [harith]

theorem serverRun_stopped (srv : Server) (evs : List (Nat × Inbound))
    (h : srv.running = false) : serverRun srv evs = srv := by
  induction evs with
  | nil => rfl
  | cons e r ih =>
    rw [serverRun, List.foldl_cons, h]
    exact ih

theorem serverRun_cons (srv : Server) (e : Nat × Inbound) (evs : List (Nat × Inbound))
    (h : srv.running = true) :
    serverRun srv (e :: evs) = serverRun (serverProcessFrame srv e.1 e.2) evs := by
  rw [serverRun, List.foldl_cons, h]
  rfl

theorem jget_auth_req_type (u p : String) : jget (auth_req u p) "type" = some "auth" := by
  simp [jget, auth_req, findA]

theorem jget_auth_req_user (u p : String) : jget (auth_req u p) "user" = some u := by
  simp [jget, auth_req, findA]

theorem jget_auth_req_pass (u p : String) : jget (auth_req u p) "pass" = some p := by
  simp [jget, auth_req, findA]

theorem step_auth_success (srv : Server) (conn : Nat) (s : chat_session) (u p : String)
    (hs : findA srv.sessions conn = some s) (hauth : s.auth = false)
    (hdb : findA user_db u = some p) (habs : srv.room.contains u = false) :
    do_read_body_step srv conn (.body (some (auth_req u p))) =
      .ok ⟨roomJoin
            (updateSession (updateSession srv conn (fun t => { t with auth := true, user := u }))
              conn (pushMsg auth_success_notice)) u conn, true⟩ := by
  rw [do_read_body_step, hs]
  simp only [jget_auth_req_type]
  rw [hauth]
  simp only [Bool.false_eq_true, if_false]
  rw [dispatchUnauthed, if_pos rfl]
  simp only [jget_auth_req_user, jget_auth_req_pass]
  rw [if_pos ⟨hdb, habs⟩]

theorem step_auth_fail (srv : Server) (conn : Nat) (s : chat_session) (u p : String)
    (hs : findA srv.sessions conn = some s) (hauth : s.auth = false)
    (hfail : ¬(findA user_db u = some p ∧ srv.room.contains u = false)) :
    do_read_body_step srv conn (.body (some (auth_req u p))) =
      .ok ⟨updateSession (updateSession srv conn (pushMsg auth_fail_notice)) conn
            (fun t => { t with closed := true }), true⟩ := by
  rw [do_read_body_step, hs]
  simp only [jget_auth_req_type]
  rw [hauth]
  simp only [Bool.false_eq_true, if_false]
  rw [dispatchUnauthed, if_pos rfl]
  simp only [jget_auth_req_user, jget_auth_req_pass]
  rw [if_neg hfail]

theorem step_chat_msg (srv : Server) (conn : Nat) (s : chat_session) (jreq : JObj)
    (hs : findA srv.sessions conn = some s) (hauth : s.auth = true)
    (ht : jget jreq "type" = some "msg") :
    do_read_body_step srv conn (.body (some jreq)) = .ok ⟨roomBroadcast srv jreq, true⟩ := by
  rw [do_read_body_step, hs]
  simp only [ht]
  rw [hauth]
  simp only [if_true]
  rw [dispatchAuthed, if_pos rfl]

theorem wRunFrom_spec (evs : List WEvent) (s : WState)
    (hInv : s.inFlight = !s.write_msgs.isEmpty) :
    (wRunFrom s evs).sent ++ (wRunFrom s evs).write_msgs =
      (s.sent ++ s.write_msgs) ++ enqueuedOf evs ∧
    (wRunFrom s evs).inFlight = !(wRunFrom s evs).write_msgs.isEmpty := by
  induction evs generalizing s with
  | nil => simp [wRunFrom, enqueuedOf, hInv]
  | cons e r ih =>
    cases e with
    | enq m =>
      have step : wRunFrom s (WEvent.enq m :: r) = wRunFrom (wDeliver s m) r := rfl
      have hq : (wDeliver s m).write_msgs = s.write_msgs ++ [m] := by
        rw [wDeliver]; split <;> rfl
      have hsent : (wDeliver s m).sent = s.sent := by
        rw [wDeliver]; split <;> rfl
      have hInv2 : (wDeliver s m).inFlight = !(wDeliver s m).write_msgs.isEmpty := by
        rw [wDeliver]
        by_cases hqe : s.write_msgs.isEmpty = true
        · simp [hqe]
        · simp [hqe, hInv]
      obtain ⟨h1, h2⟩ := ih (wDeliver s m) hInv2
      rw [step]
      refine ⟨?_, h2⟩
      rw [h1, hq, hsent, enqueuedOf]
      simp [enqueuedOf]
    | complete =>
      have step : wRunFrom s (WEvent.complete :: r) = wRunFrom (wComplete s) r := rfl
      have henq : enqueuedOf (WEvent.complete :: r) = enqueuedOf r := by
        simp [enqueuedOf]
      cases hf : s.inFlight with
      | false =>
        have hsame : wComplete s = s := by
          rw [wComplete, hf]; rfl
        rw [step, hsame, henq]
        exact ih s hInv
      | true =>
        have hne : s.write_msgs.isEmpty = false := by
          rw [hf] at hInv
          cases hq : s.write_msgs.isEmpty
          · rfl
          · rw [hq] at hInv; simp at hInv
        cases hq : s.write_msgs with
        | nil => rw [hq] at hne; simp at hne
        | cons f rest =>
          have hstep2 : wComplete s =
              ⟨rest, !rest.isEmpty, s.sent ++ [f]⟩ := by
            rw [wComplete, hf, hq]
            rfl
          obtain ⟨h1, h2⟩ := ih (wComplete s) (by rw [hstep2])
          rw [step]
          refine ⟨?_, h2⟩
          rw [h1, hstep2, henq]
          simp

/-- Claim C8: for a single session, frames enqueued on the outbound queue in
order are written to the socket in exactly that order with at most one write
in flight at any time (the pipeline has a single in-flight write, active
exactly when the queue is non-empty): after any event sequence, the frames
sent so far followed by the still-queued frames are exactly the enqueued
frames in order, so the sent list is a prefix of the enqueue order. -/
theorem C8_write_pipeline_fifo (evs : List WEvent) :
    (wRun evs).sent ++ (wRun evs).write_msgs = enqueuedOf evs ∧
    (wRun evs).inFlight = !(wRun evs).write_msgs.isEmpty ∧
    (wRun evs).sent <+: enqueuedOf evs := by
  obtain ⟨h1, h2⟩ := wRunFrom_spec evs wInit rfl
  have h1s : (wRun evs).sent ++ (wRun evs).write_msgs = enqueuedOf evs := by
    rw [wRun, h1]
    rfl
  exact ⟨h1s, h2, (wRun evs).write_msgs, h1s⟩

/-- Claim C9: `chat_room::deliver(to, from, msg)` (private routing) never
modifies the room state: the history and the participant map are unchanged,
so the replay a later joiner receives is exactly the same broadcast history
as before the private delivery. -/
theorem C9_private_preserves_room (srv : Server) (toUser fromUser text : String) :
    (roomPrivate srv toUser fromUser text).room = srv.room ∧
    (roomPrivate srv toUser fromUser text).room.recent_msgs = srv.room.recent_msgs ∧
    (roomPrivate srv toUser fromUser text).room.participants = srv.room.participants ∧
    ∀ (name : String) (conn : Nat),
      findA (roomJoin (roomPrivate srv toUser fromUser text) name conn).sessions conn =
        (findA (roomPrivate srv toUser fromUser text).sessions conn).map
          (fun s => { s with write_msgs := s.write_msgs ++ srv.room.recent_msgs }) := by
  have hroom : (roomPrivate srv toUser fromUser text).room = srv.room := by
    rw [roomPrivate]
    cases findA srv.room.participants toUser with
    | none => rfl
    | some c => rw [updateSession_room]
  refine ⟨hroom, by rw [hroom], by rw [hroom], ?_⟩
  intro name conn
  rw [roomJoin_findA, hroom]

/-- Claim C7: `chat_room::deliver(to, from, msg)`: if `to` is a current
participant, exactly one Private message carrying `from` and the text is
appended to that participant's session queue and every other session is
untouched; if `to` is absent, the server state is completely unchanged, so
no delivery, error or notice reaches anyone (the sender included). -/
theorem C7_private_delivery (srv : Server) (toUser fromUser text : String) :
    (∀ conn : Nat, findA srv.room.participants toUser = some conn →
      findA (roomPrivate srv toUser fromUser text).sessions conn =
        (findA srv.sessions conn).map (pushMsg (prv_msg fromUser text)) ∧
      (∀ c : Nat, c ≠ conn →
        findA (roomPrivate srv toUser fromUser text).sessions c = findA srv.sessions c)) ∧
    (findA srv.room.participants toUser = none →
      roomPrivate srv toUser fromUser text = srv) := by
  constructor
  · intro conn hc
    rw [roomPrivate, hc]
    exact ⟨updateSession_findA srv conn _,
      fun c hne => updateSession_findA_ne srv conn c _ hne⟩
  · intro hc
    rw [roomPrivate, hc]

/-- Claim C6: one broadcast of a Chat message delivers exactly one copy of
the identical frame to each of the N participants' sessions — the sender's
own session included, since the sender is in the participant map — and
touches no other session; the participant map itself is unchanged. -/
theorem C6_broadcast_fanout (srv : Server) (m : JObj)
    (hnd : (srv.room.participants.map Prod.snd).Nodup) :
    (∀ q ∈ srv.room.participants,
      findA (roomBroadcast srv m).sessions q.2 =
        (findA srv.sessions q.2).map (pushMsg m)) ∧
    (∀ c : Nat, c ∉ srv.room.participants.map Prod.snd →
      findA (roomBroadcast srv m).sessions c = findA srv.sessions c) ∧
    (roomBroadcast srv m).room.participants = srv.room.participants := by
  refine ⟨?_, ?_, roomBroadcast_participants srv m⟩
  · intro q hq
    rw [roomBroadcast]
    exact deliverToAll_findA_mem _ m _ q.1 q.2 hnd hq
  · intro c hc
    rw [roomBroadcast]
    exact deliverToAll_findA_not_mem _ m _ c hc

/-- Claim C10: a session in the Authenticated state that receives a parsed
message whose type is neither `msg` nor `prv` (a repeated `auth` or an
inbound `srv` Notice included) is silently ignored: the handler returns the
server state unchanged — no reply queued, session, room and queues
untouched — and continues reading the next frame. -/
theorem C10_authenticated_ignores_unknown (srv : Server) (conn : Nat) (s : chat_session)
    (jreq : JObj) (t : String)
    (hs : findA srv.sessions conn = some s) (hauth : s.auth = true)
    (ht : jget jreq "type" = some t) (h1 : t ≠ "msg") (h2 : t ≠ "prv") :
    do_read_body_step srv conn (.body (some jreq)) = .ok ⟨srv, true⟩ := by
  rw [do_read_body_step, hs]
  simp only [ht]
  rw [hauth]
  simp only [if_true]
  rw [dispatchAuthed, if_neg h1, if_neg h2]

/-- Claim C1 (amended): for an Authenticated session receiving a Chat
(type `msg`) message, the frame handed to the room and broadcast is the
inbound client frame unchanged — appended as-is to the history — so the
`user` field recipients see is whatever the client supplied; the session's
stored username is not attached. -/
theorem C1_broadcast_is_client_frame (srv : Server) (conn : Nat) (s : chat_session)
    (jreq : JObj) (hs : findA srv.sessions conn = some s) (hauth : s.auth = true)
    (ht : jget jreq "type" = some "msg") :
    do_read_body_step srv conn (.body (some jreq)) = .ok ⟨roomBroadcast srv jreq, true⟩ ∧
    (roomBroadcast srv jreq).room.recent_msgs = trim_history (srv.room.recent_msgs ++ [jreq]) :=
  ⟨step_chat_msg srv conn s jreq hs hauth ht, roomBroadcast_recent srv jreq⟩

/-- Claim C1 is false as stated: on a concrete server where connection 1 is
authenticated as alice, a Chat frame whose `user` field says mallory is
broadcast carrying mallory, and the broadcast result differs from the one
for an otherwise identical frame carrying alice — the broadcast content
does depend on the client-supplied `user` field. -/
theorem C1_counterexample :
    (serverProcessFrame demo_srv 1 (Inbound.body (some (chat_req "mallory" "hi")))).room.recent_msgs
      = [chat_req "mallory" "hi"] ∧
    jget (chat_req "mallory" "hi") "user" = some "mallory" ∧
    (authed_session "alice").user = "alice" ∧
    ("mallory" : String) ≠ "alice" ∧
    serverProcessFrame demo_srv 1 (Inbound.body (some (chat_req "mallory" "hi"))) ≠
      serverProcessFrame demo_srv 1 (Inbound.body (some (chat_req "alice" "hi"))) := by
  decide

theorem C1_witness :
    do_read_body_step demo_srv 1 (.body (some (chat_req "mallory" "hi"))) =
      .ok ⟨roomBroadcast demo_srv (chat_req "mallory" "hi"), true⟩ ∧
    (roomBroadcast demo_srv (chat_req "mallory" "hi")).room.recent_msgs =
      trim_history (demo_srv.room.recent_msgs ++ [chat_req "mallory" "hi"]) :=
  C1_broadcast_is_client_frame demo_srv 1 (authed_session "alice") (chat_req "mallory" "hi")
    (by rfl) (by rfl) (by rfl)

/-- Claim C2 (amended): a frame whose body does not parse raises an
exception in the completion handler; it escapes `io_context.run()`, is
caught in `main`, and the process exits — the failure is fatal to the
whole server, not only to the offending connection: afterwards no event is
processed for any connection, and no Notice is sent to anyone. -/
theorem C2_decode_failure_stops_process (srv : Server) (conn : Nat) (s : chat_session)
    (hs : findA srv.sessions conn = some s) :
    do_read_body_step srv conn (Inbound.body none) = .error () ∧
    serverProcessFrame srv conn (Inbound.body none) = { srv with running := false } ∧
    ∀ evs : List (Nat × Inbound),
      serverRun { srv with running := false } evs = { srv with running := false } := by
  have h1 : do_read_body_step srv conn (Inbound.body none) = .error () := by
    rw [do_read_body_step, hs]
  refine ⟨h1, ?_, fun evs => serverRun_stopped _ evs rfl⟩
  rw [serverProcessFrame, h1]

/-- Claim C2 is false as stated: on a concrete server with authenticated
connections 1 and 2, a frame from connection 1 whose body fails to parse
stops the whole process — a subsequent well-formed Chat frame from
connection 2 is no longer processed (the history stays empty, while
without the bad frame it would hold the chat), and connection 1 is not
sent any Notice either. -/
theorem C2_counterexample :
    (serverRun demo_srv
        [(1, Inbound.body none),
         (2, Inbound.body (some (chat_req "bob" "hi")))]).room.recent_msgs = [] ∧
    (serverRun demo_srv
        [(2, Inbound.body (some (chat_req "bob" "hi")))]).room.recent_msgs =
      [chat_req "bob" "hi"] ∧
    (serverRun demo_srv
        [(1, Inbound.body none),
         (2, Inbound.body (some (chat_req "bob" "hi")))]).running = false ∧
    (findA (serverRun demo_srv
        [(1, Inbound.body none),
         (2, Inbound.body (some (chat_req "bob" "hi")))]).sessions 1).map
      chat_session.write_msgs = some [] := by
  decide

theorem C2_witness :
    serverProcessFrame demo_srv 1 (Inbound.body none) = { demo_srv with running := false } :=
  (C2_decode_failure_stops_process demo_srv 1 (authed_session "alice") (by rfl)).2.1

/-- Claim C3 (amended): an Unauthenticated session whose Auth fails the
credential lookup or whose username is already present gets exactly one
failure Notice appended to its queue and its socket shut down for writing
(`do_close`), while its auth state and the room are unchanged — but there
is no terminal Closed state: the handler still continues reading
(`continueReading = true`), and a later Auth with valid credentials can
still authenticate the session (see the counterexample). -/
theorem C3_failed_auth (srv : Server) (conn : Nat) (s : chat_session) (u p : String)
    (hs : findA srv.sessions conn = some s) (hauth : s.auth = false)
    (hfail : ¬(findA user_db u = some p ∧ srv.room.contains u = false)) :
    do_read_body_step srv conn (.body (some (auth_req u p))) =
      .ok ⟨updateSession (updateSession srv conn (pushMsg auth_fail_notice)) conn
            (fun t => { t with closed := true }), true⟩ ∧
    findA (updateSession (updateSession srv conn (pushMsg auth_fail_notice)) conn
            (fun t => { t with closed := true })).sessions conn =
      some { s with write_msgs := s.write_msgs ++ [auth_fail_notice], closed := true } ∧
    (updateSession (updateSession srv conn (pushMsg auth_fail_notice)) conn
      (fun t => { t with closed := true })).room = srv.room := by
  refine ⟨step_auth_fail srv conn s u p hs hauth hfail, ?_, rfl⟩
  rw [updateSession_findA, updateSession_findA, hs]
  rfl

/-- Claim C3 is false as stated: after a failed Auth the session is not in
any terminal state — on a concrete server, connection 1 fails an Auth
(wrong password; it gets the failure Notice and the write-side shutdown)
and then sends a second Auth with the correct password, which is processed
and succeeds: the session becomes Authenticated and joins the room. -/
theorem C3_counterexample :
    (serverProcessFrame c3_srv 1 (Inbound.body (some (auth_req "alice" "wrong")))).sessions =
      [(1, { write_msgs := [auth_fail_notice], auth := false, user := "", closed := true })] ∧
    (findA (serverProcessFrame
        (serverProcessFrame c3_srv 1 (Inbound.body (some (auth_req "alice" "wrong"))))
        1 (Inbound.body (some (auth_req "alice" "hunter2")))).sessions 1).map
      chat_session.auth = some true ∧
    findA (serverProcessFrame
        (serverProcessFrame c3_srv 1 (Inbound.body (some (auth_req "alice" "wrong"))))
        1 (Inbound.body (some (auth_req "alice" "hunter2")))).room.participants "alice" =
      some 1 := by
  decide

theorem C3_witness :
    ¬(findA user_db "alice" = some "wrong" ∧ c3_srv.room.contains "alice" = false) ∧
    do_read_body_step c3_srv 1 (.body (some (auth_req "alice" "wrong"))) =
      .ok ⟨updateSession (updateSession c3_srv 1 (pushMsg auth_fail_notice)) 1
            (fun t => { t with closed := true }), true⟩ :=
  ⟨by decide,
   (C3_failed_auth c3_srv 1 fresh_session "alice" "wrong" (by rfl) (by rfl) (by decide)).1⟩

/-- Claim C4: when an Auth with username `u` from connection `c1` succeeds
and then a second connection `c2` attempts an Auth with the same username
(any password), the second attempt is rejected — it gets the failure
Notice, no join happens — and the participant map holds exactly one entry
for `u`, referencing `c1`; the map keeps the invariant that every key has
valid credentials in the store (compared with case-sensitive string
equality) and keys are unique. -/
theorem C4_duplicate_username_rejected (srv : Server) (c1 c2 : Nat)
    (s1 s2 : chat_session) (u p1 p2 : String) (srv1 srv2 : Server)
    (hne : c2 ≠ c1)
    (hs1 : findA srv.sessions c1 = some s1) (ha1 : s1.auth = false)
    (hdb : findA user_db u = some p1)
    (habs : findA srv.room.participants u = none)
    (hs2 : findA srv.sessions c2 = some s2) (ha2 : s2.auth = false)
    (hgood : GoodRoom srv)
    (h1 : srv1 = serverProcessFrame srv c1 (Inbound.body (some (auth_req u p1))))
    (h2 : srv2 = serverProcessFrame srv1 c2 (Inbound.body (some (auth_req u p2)))) :
    srv1.room.participants = srv.room.participants ++ [(u, c1)] ∧
    srv2.room.participants = srv.room.participants ++ [(u, c1)] ∧
    findA srv2.room.participants u = some c1 ∧
    countKey srv2.room.participants u = 1 ∧
    findA srv2.sessions c2 =
      some { s2 with write_msgs := s2.write_msgs ++ [auth_fail_notice], closed := true } ∧
    GoodRoom srv2 := by
  subst h2
  subst h1
  have hcont : srv.room.contains u = false := by
    rw [chat_room.contains, habs]
    rfl
  have e1 : serverProcessFrame srv c1 (Inbound.body (some (auth_req u p1))) =
      roomJoin
        (updateSession (updateSession srv c1 (fun t => { t with auth := true, user := u }))
          c1 (pushMsg auth_success_notice)) u c1 := by
    rw [serverProcessFrame, step_auth_success srv c1 s1 u p1 hs1 ha1 hdb hcont]
  have parts1 : (serverProcessFrame srv c1
      (Inbound.body (some (auth_req u p1)))).room.participants =
      srv.room.participants ++ [(u, c1)] := by
    rw [e1, roomJoin_participants, updateSession_room, updateSession_room, emplaceA, habs]
    rfl
  have hsess1 : findA (serverProcessFrame srv c1
      (Inbound.body (some (auth_req u p1)))).sessions c2 = some s2 := by
    rw [e1, roomJoin_findA_ne _ _ _ _ hne, updateSession_findA_ne _ _ _ _ hne,
      updateSession_findA_ne _ _ _ _ hne, hs2]
  have hfind1 : findA (serverProcessFrame srv c1
      (Inbound.body (some (auth_req u p1)))).room.participants u = some c1 := by
    rw [parts1]
    exact findA_append_none _ _ _ habs
  have hcont1 : (serverProcessFrame srv c1
      (Inbound.body (some (auth_req u p1)))).room.contains u = true := by
    rw [chat_room.contains, hfind1]
    rfl
  have hfail : ¬(findA user_db u = some p2 ∧
      (serverProcessFrame srv c1
        (Inbound.body (some (auth_req u p1)))).room.contains u = false) := by
    intro h
    rw [hcont1] at h
    simp at h
  have e2 : serverProcessFrame (serverProcessFrame srv c1
      (Inbound.body (some (auth_req u p1)))) c2 (Inbound.body (some (auth_req u p2))) =
      updateSession (updateSession (serverProcessFrame srv c1
        (Inbound.body (some (auth_req u p1)))) c2 (pushMsg auth_fail_notice)) c2
        (fun t => { t with closed := true }) := by
    rw [serverProcessFrame, step_auth_fail _ c2 s2 u p2 hsess1 ha2 hfail]
  have parts2 : (serverProcessFrame (serverProcessFrame srv c1
      (Inbound.body (some (auth_req u p1)))) c2
      (Inbound.body (some (auth_req u p2)))).room.participants =
      srv.room.participants ++ [(u, c1)] := by
    rw [e2, updateSession_room, updateSession_room, parts1]
  have hkeys : u ∉ srv.room.participants.map Prod.fst :=
    findA_none_not_mem_keys _ _ habs
  refine ⟨parts1, parts2, ?_, ?_, ?_, ?_⟩
  · rw [parts2]
    exact findA_append_none _ _ _ habs
  · rw [parts2, countKey_append, findA_none_countKey _ _ habs, countKey, countKey,
      if_pos rfl]
  · rw [e2, updateSession_findA, updateSession_findA, hsess1]
    rfl
  · constructor
    · intro q hq
      rw [parts2] at hq
      rcases List.mem_append.mp hq with hql | hqr
      · exact hgood.1 q hql
      · have : q = (u, c1) := by
          cases List.mem_singleton.mp hqr
          rfl
        rw [this, hdb]
        rfl
    · rw [parts2, List.map_append]
      refine hgood.2.append (List.nodup_singleton u) ?_
      intro a ha hb
      rw [List.map_singleton, List.mem_singleton] at hb
      rw [hb] at ha
      exact hkeys ha

theorem C4_witness :
    GoodRoom c4_srv ∧
    countKey (serverProcessFrame
        (serverProcessFrame c4_srv 1 (Inbound.body (some (auth_req "alice" "hunter2"))))
        2 (Inbound.body (some (auth_req "alice" "hunter2")))).room.participants "alice" = 1 ∧
    findA (serverProcessFrame
        (serverProcessFrame c4_srv 1 (Inbound.body (some (auth_req "alice" "hunter2"))))
        2 (Inbound.body (some (auth_req "alice" "hunter2")))).room.participants "alice" =
      some 1 :=
  have hg : GoodRoom c4_srv := ⟨by simp [c4_srv], by simp [c4_srv]⟩
  have h := C4_duplicate_username_rejected c4_srv 1 2 fresh_session fresh_session
    "alice" "hunter2" "hunter2" _ _ (by decide) (by rfl) (by rfl) (by rfl) (by rfl)
    (by rfl) (by rfl) hg rfl rfl
  ⟨hg, h.2.2.2.1, h.2.2.1⟩

/-- Claim C5: starting from an empty history, after broadcasting
`capacity + k` messages (`k ≥ 1`) the history holds exactly the last
`capacity` of them — the oldest `k` evicted first — in original order; a
participant who then joins is replayed exactly those last `capacity`
messages, oldest first; and the capacity `max_recent_msgs` is a fixed
bound between 100 and 128. -/
theorem C5_history_eviction (srv : Server) (ms : List JObj) (k : Nat)
    (name : String) (conn : Nat)
    (h0 : srv.room.recent_msgs = []) (hk : 1 ≤ k)
    (hlen : ms.length = max_recent_msgs + k) :
    (broadcastAll srv ms).room.recent_msgs = ms.drop k ∧
    (broadcastAll srv ms).room.recent_msgs.length = max_recent_msgs ∧
    (∀ s : chat_session, findA (broadcastAll srv ms).sessions conn = some s →
      findA (roomJoin (broadcastAll srv ms) name conn).sessions conn =
        some { s with write_msgs := s.write_msgs ++ ms.drop k }) ∧
    100 ≤ max_recent_msgs ∧ max_recent_msgs ≤ 128 := by
  have hrec : (broadcastAll srv ms).room.recent_msgs = ms.drop k := by
    rw [broadcastAll_recent ms srv (by rw [h0]; simp), h0, List.nil_append,
      List.length_nil, Nat.zero_add]
    have : ms.length - max_recent_msgs = k := by omega
    rw [this]
  refine ⟨hrec, ?_, ?_, by decide, by decide⟩
  · rw [hrec, List.length_drop, hlen]
    omega
  · intro s hsf
    rw [roomJoin_findA, hrec, hsf]
    rfl

theorem C5_witness :
    demo_srv.room.recent_msgs = [] ∧
    c5_ms.length = max_recent_msgs + 1 ∧
    (broadcastAll demo_srv c5_ms).room.recent_msgs = c5_ms.drop 1 ∧
    (broadcastAll demo_srv c5_ms).room.recent_msgs.length = max_recent_msgs :=
  have h := C5_history_eviction demo_srv c5_ms 1 "carol" 3 (by rfl) (by decide)
    (by simp [c5_ms])
  ⟨rfl, by simp [c5_ms], h.1, h.2.1⟩

theorem C6_witness :
    findA (roomBroadcast demo_srv (chat_req "alice" "hey")).sessions 1 =
      (findA demo_srv.sessions 1).map (pushMsg (chat_req "alice" "hey")) ∧
    findA (roomBroadcast demo_srv (chat_req "alice" "hey")).sessions 2 =
      (findA demo_srv.sessions 2).map (pushMsg (chat_req "alice" "hey")) ∧
    findA (roomBroadcast demo_srv (chat_req "alice" "hey")).sessions 3 =
      findA demo_srv.sessions 3 :=
  have h := C6_broadcast_fanout demo_srv (chat_req "alice" "hey") (by decide)
  ⟨h.1 ("alice", 1) (by decide), h.1 ("bob", 2) (by decide), h.2.1 3 (by decide)⟩

theorem C7_witness :
    findA (roomPrivate demo_srv "bob" "alice" "hi").sessions 2 =
      (findA demo_srv.sessions 2).map (pushMsg (prv_msg "alice" "hi")) ∧
    findA (roomPrivate demo_srv "bob" "alice" "hi").sessions 1 =
      findA demo_srv.sessions 1 ∧
    roomPrivate demo_srv "carol" "alice" "hi" = demo_srv :=
  have h := C7_private_delivery demo_srv "bob" "alice" "hi"
  ⟨(h.1 2 (by rfl)).1, (h.1 2 (by rfl)).2 1 (by decide),
   (C7_private_delivery demo_srv "carol" "alice" "hi").2 (by rfl)⟩

theorem C10_witness :
    do_read_body_step demo_srv 1 (.body (some (auth_req "alice" "hunter2"))) =
      .ok ⟨demo_srv, true⟩ ∧
    do_read_body_step demo_srv 1
        (.body (some [("type", "srv"), ("str", "note")])) = .ok ⟨demo_srv, true⟩ :=
  ⟨C10_authenticated_ignores_unknown demo_srv 1 (authed_session "alice")
      (auth_req "alice" "hunter2") "auth" (by rfl) (by rfl) (by rfl)
      (by decide) (by decide),
   C10_authenticated_ignores_unknown demo_srv 1 (authed_session "alice")
      [("type", "srv"), ("str", "note")] "srv" (by rfl) (by rfl) (by rfl)
      (by decide) (by decide)⟩
